import Mathlib

/-!
Shallow embedding of the guestbook application in `src/main.py`
(repository `aghyad-alghazawi/python-fasthtml`).

The program keeps an append-only store of messages (id, name, message,
timestamp string), formats insertion times with
`TIMESTAMP_FMT = "%Y-%m-%d %I:%M:%S %p PST"`, sorts messages descending by
re-parsing that string (`get_all_messages`), renders HTML fragments
(`create_message_list`, `create_guest_counter`) and exposes three handlers
(`GET /`, `POST /submit-message`, `GET /update-messages`).

Python `datetime` values are embedded as records of civil fields; `strftime`
and `strptime` over the one fixed format are embedded directly, following
CPython `_strptime` (field regexes, AM/PM handling, case-insensitive
matching, whitespace runs, full-match requirement, and the `datetime`
constructor's range validation).  Python's `sorted(..., key=..., reverse=True)`
is a stable sort with respect to `<` on keys; a stable sort of a list under a
total preorder is a unique function, so it is embedded as the stable
insertion sort with the relation "not (key a < key b)", which is
extensionally the same function.
-/

namespace Guestbook

/-- `MAX_NAME_CHAR` from `src/main.py` (advisory UI limit, never enforced server-side). -/
def MAX_NAME_CHAR : Nat := 15

/-- `MAX_MESSAGE_CHAR` from `src/main.py`. -/
def MAX_MESSAGE_CHAR : Nat := 50

/-- `TIMESTAMP_FMT` from `src/main.py`. -/
def TIMESTAMP_FMT : String := "%Y-%m-%d %I:%M:%S %p PST"

/-- A Python `datetime`'s civil fields (microseconds are always 0 here:
the format carries none and `strptime` defaults them to 0; comparison of
`datetime` values is lexicographic on these fields). -/
structure DT where
  year : Nat
  month : Nat
  day : Nat
  hour : Nat
  minute : Nat
  second : Nat
deriving DecidableEq, Repr

/-- Python `datetime.__lt__`: lexicographic comparison of the civil fields. -/
def DT.lt (a b : DT) : Prop :=
  a.year < b.year ∨ (a.year = b.year ∧ (a.month < b.month ∨ (a.month = b.month ∧
    (a.day < b.day ∨ (a.day = b.day ∧ (a.hour < b.hour ∨ (a.hour = b.hour ∧
      (a.minute < b.minute ∨ (a.minute = b.minute ∧ a.second < b.second)))))))))

instance : DecidableRel DT.lt := fun a b => by unfold DT.lt; infer_instance

theorem DT.lt_trans {a b c : DT} (h1 : DT.lt a b) (h2 : DT.lt b c) : DT.lt a c := by
  unfold DT.lt at *; omega

theorem DT.lt_asymm {a b : DT} (h : DT.lt a b) : ¬ DT.lt b a := by
  unfold DT.lt at *; omega

theorem DT.eq_of_not_lt {a b : DT} (h1 : ¬ DT.lt a b) (h2 : ¬ DT.lt b a) : a = b := by
  rcases a with ⟨y, mo, d, h, mi, s⟩
  rcases b with ⟨y2, mo2, d2, h2, mi2, s2⟩
  unfold DT.lt at h1 h2
  dsimp only at h1 h2
  simp only [DT.mk.injEq]
  omega

/-- Gregorian leap year, as in Python's `calendar`/`datetime`. -/
def isLeapYear (y : Nat) : Bool :=
  y % 4 == 0 && (y % 100 != 0 || y % 400 == 0)

/-- Days in a month, as validated by the Python `datetime` constructor. -/
def daysInMonth (y m : Nat) : Nat :=
  if m = 2 then (if isLeapYear y then 29 else 28)
  else if m = 4 ∨ m = 6 ∨ m = 9 ∨ m = 11 then 30
  else 31

/-- Field ranges of a `datetime` value that `datetime.now` can produce in
any realistic era (4-digit year keeps `%Y` at exactly four characters, the
width CPython's `strptime` regex for `%Y` demands). -/
def DT.Valid (d : DT) : Prop :=
  1000 ≤ d.year ∧ d.year ≤ 9999 ∧ 1 ≤ d.month ∧ d.month ≤ 12 ∧
  1 ≤ d.day ∧ d.day ≤ daysInMonth d.year d.month ∧
  d.hour ≤ 23 ∧ d.minute ≤ 59 ∧ d.second ≤ 59

instance (d : DT) : Decidable d.Valid := by unfold DT.Valid; infer_instance

/-! ### `strftime` over `TIMESTAMP_FMT` -/

/-- The decimal digit character for `n % 10`. -/
def digitChar (n : Nat) : Char :=
  match n % 10 with
  | 0 => '0' | 1 => '1' | 2 => '2' | 3 => '3' | 4 => '4'
  | 5 => '5' | 6 => '6' | 7 => '7' | 8 => '8' | _ => '9'

/-- Zero-padded two-digit field (`%m`, `%d`, `%I`, `%M`, `%S` output). -/
def pad2 (n : Nat) : String :=
  String.mk [digitChar (n / 10), digitChar n]

/-- Zero-padded four-digit year (`%Y` output for four-digit years). -/
def pad4 (n : Nat) : String :=
  String.mk [digitChar (n / 1000), digitChar (n / 100), digitChar (n / 10), digitChar n]

/-- The 12-hour clock value printed by `%I`. -/
def hour12 (h : Nat) : Nat :=
  if h % 12 = 0 then 12 else h % 12

/-- `%p` output. -/
def ampm (h : Nat) : String :=
  if h < 12 then "AM" else "PM"

/-- `dt.strftime(TIMESTAMP_FMT)`: the timestamp string written by the program. -/
def strftime (d : DT) : String :=
  pad4 d.year ++ "-" ++ pad2 d.month ++ "-" ++ pad2 d.day ++ " " ++
  pad2 (hour12 d.hour) ++ ":" ++ pad2 d.minute ++ ":" ++ pad2 d.second ++ " " ++
  ampm d.hour ++ " PST"

/-! ### `strptime` over `TIMESTAMP_FMT`

CPython's `_strptime` compiles the format into a regex (with `re.IGNORECASE`):
`%Y ↦ \d\d\d\d`, `%m`/`%I` ↦ `1[0-2]|0[1-9]|[1-9]`,
`%d ↦ 3[01]|[12]\d|0[1-9]|[1-9]`, `%M ↦ [0-5]\d|\d`, `%S ↦ 6[0-1]|[0-5]\d|\d`,
`%p ↦ AM|PM`, literal whitespace ↦ `\s+`, other literals verbatim; the whole
input must be consumed ("unconverted data remains" otherwise), and the
`datetime` constructor then validates the field ranges. -/

/-- Numeric value of a decimal digit character. -/
def digitVal (c : Char) : Option Nat :=
  if c.isDigit then some (c.toNat - 48) else none

/-- `\d\d\d\d` (the `%Y` field). -/
def parseYear4 : List Char → Option (Nat × List Char)
  | a :: b :: c :: d :: rest => do
    let x ← digitVal a
    let y ← digitVal b
    let z ← digitVal c
    let w ← digitVal d
    pure (((x * 10 + y) * 10 + z) * 10 + w, rest)
  | _ => none

/-- `1[0-2]|0[1-9]|[1-9]` (the `%m` and `%I` fields), with the regex
alternatives tried left to right. -/
def parseNum1to12 : List Char → Option (Nat × List Char)
  | [] => none
  | a :: rest =>
    match digitVal a with
    | none => none
    | some x =>
      match rest with
      | [] => if 1 ≤ x then some (x, []) else none
      | b :: rest2 =>
        match digitVal b with
        | none => if 1 ≤ x then some (x, rest) else none
        | some y =>
          if x = 1 ∧ y ≤ 2 then some (10 + y, rest2)
          else if x = 0 ∧ 1 ≤ y then some (y, rest2)
          else if 1 ≤ x then some (x, rest)
          else none

/-- `3[01]|[12]\d|0[1-9]|[1-9]` (the `%d` field). -/
def parseDay : List Char → Option (Nat × List Char)
  | [] => none
  | a :: rest =>
    match digitVal a with
    | none => none
    | some x =>
      match rest with
      | [] => if 1 ≤ x then some (x, []) else none
      | b :: rest2 =>
        match digitVal b with
        | none => if 1 ≤ x then some (x, rest) else none
        | some y =>
          if x = 3 ∧ y ≤ 1 then some (30 + y, rest2)
          else if x = 1 ∨ x = 2 then some (10 * x + y, rest2)
          else if x = 0 ∧ 1 ≤ y then some (y, rest2)
          else if 1 ≤ x then some (x, rest)
          else none

/-- `[0-5]\d|\d` (the `%M` field). -/
def parseMin : List Char → Option (Nat × List Char)
  | [] => none
  | a :: rest =>
    match digitVal a with
    | none => none
    | some x =>
      match rest with
      | [] => some (x, [])
      | b :: rest2 =>
        match digitVal b with
        | none => some (x, rest)
        | some y => if x ≤ 5 then some (10 * x + y, rest2) else some (x, rest)

/-- `6[0-1]|[0-5]\d|\d` (the `%S` field; `strptime` regexes admit leap seconds,
the `datetime` constructor later rejects 60 and 61). -/
def parseSec : List Char → Option (Nat × List Char)
  | [] => none
  | a :: rest =>
    match digitVal a with
    | none => none
    | some x =>
      match rest with
      | [] => some (x, [])
      | b :: rest2 =>
        match digitVal b with
        | none => some (x, rest)
        | some y =>
          if x = 6 ∧ y ≤ 1 then some (60 + y, rest2)
          else if x ≤ 5 then some (10 * x + y, rest2)
          else some (x, rest)

/-- `AM|PM` under `re.IGNORECASE`; returns `true` for PM. -/
def parseAmPm : List Char → Option (Bool × List Char)
  | a :: b :: rest =>
    if a.toLower = 'a' ∧ b.toLower = 'm' then some (false, rest)
    else if a.toLower = 'p' ∧ b.toLower = 'm' then some (true, rest)
    else none
  | _ => none

/-- The characters matched by the regex class `\s`. -/
def isSpace (c : Char) : Bool :=
  c = ' ' || c = '\t' || c = '\n' || c = '\r' || c = '\x0b' || c = '\x0c'

/-- Greedily drop leading whitespace. -/
def skipWs : List Char → List Char
  | [] => []
  | c :: rest => if isSpace c then skipWs rest else c :: rest

/-- `\s+` (a literal space in the format): at least one whitespace character. -/
def parseWs : List Char → Option (List Char)
  | [] => none
  | c :: rest => if isSpace c then some (skipWs rest) else none

/-- A literal, matched case-insensitively (the whole `_strptime` regex is
compiled with `re.IGNORECASE`). -/
def parseLitCI : List Char → List Char → Option (List Char)
  | [], rest => some rest
  | _ :: _, [] => none
  | l :: ls, c :: rest => if c.toLower = l.toLower then parseLitCI ls rest else none

/-- CPython `_strptime` 12-hour to 24-hour conversion from `%I` and `%p`. -/
def hourFrom12 (i : Nat) (pm : Bool) : Nat :=
  if pm then (if i = 12 then 12 else i + 12) else (if i = 12 then 0 else i)

/-- `datetime.strptime(s, TIMESTAMP_FMT)`: parse the fixed format, then apply
the `datetime` constructor's range validation; `none` models the raised
`ValueError`. -/
def strptime (s : String) : Option DT :=
  match parseYear4 s.data with
  | none => none
  | some (y, cs) =>
  match parseLitCI [ '-'] cs with
  | none => none
  | some cs =>
  match parseNum1to12 cs with
  | none => none
  | some (mo, cs) =>
  match parseLitCI [ '-'] cs with
  | none => none
  | some cs =>
  match parseDay cs with
  | none => none
  | some (d, cs) =>
  match parseWs cs with
  | none => none
  | some cs =>
  match parseNum1to12 cs with
  | none => none
  | some (i, cs) =>
  match parseLitCI [ ':'] cs with
  | none => none
  | some cs =>
  match parseMin cs with
  | none => none
  | some (mi, cs) =>
  match parseLitCI [ ':'] cs with
  | none => none
  | some cs =>
  match parseSec cs with
  | none => none
  | some (sec, cs) =>
  match parseWs cs with
  | none => none
  | some cs =>
  match parseAmPm cs with
  | none => none
  | some (pm, cs) =>
  match parseWs cs with
  | none => none
  | some cs =>
  match parseLitCI [ 'P', 'S', 'T'] cs with
  | none => none
  | some cs =>
  if cs = [] ∧ 1 ≤ y ∧ d ≤ daysInMonth y mo ∧ sec ≤ 59 then
    some ⟨y, mo, d, hourFrom12 i pm, mi, sec⟩
  else none

/-! ### Round trip: a timestamp the program wrote always parses back -/

theorem digitVal_digitChar (n : Nat) : digitVal (digitChar n) = some (n % 10) := by
  have h : n % 10 < 10 := Nat.mod_lt _ (by omega)
  unfold digitChar
  generalize n % 10 = m at *
  interval_cases m <;> decide

theorem isSpace_digitChar (n : Nat) : isSpace (digitChar n) = false := by
  have h : n % 10 < 10 := Nat.mod_lt _ (by omega)
  unfold digitChar
  generalize n % 10 = m at *
  interval_cases m <;> decide

theorem pad2_data (n : Nat) : (pad2 n).data = digitChar (n / 10) :: [digitChar n] := rfl

theorem pad4_data (n : Nat) :
    (pad4 n).data = digitChar (n / 1000) :: digitChar (n / 100) :: digitChar (n / 10) :: [digitChar n] := rfl

theorem parseYear4_pad4 (y : Nat) (r : List Char) (h1 : 1000 ≤ y) (h2 : y ≤ 9999) :
    parseYear4 (digitChar (y / 1000) :: digitChar (y / 100) :: digitChar (y / 10) ::
      digitChar y :: r) = some (y, r) := by
  simp only [parseYear4, digitVal_digitChar,
    Option.bind_eq_bind, Option.some_bind, Option.pure_def, Option.some.injEq, Prod.mk.injEq,
    eq_self_iff_true, and_true]
  omega

theorem parseNum1to12_pad2 (m : Nat) (r : List Char) (h1 : 1 ≤ m) (h2 : m ≤ 12) :
    parseNum1to12 (digitChar (m / 10) :: digitChar m :: r) = some (m, r) := by
  simp only [parseNum1to12, digitVal_digitChar]
  split_ifs <;>
    first
      | (simp only [Option.some.injEq, Prod.mk.injEq, eq_self_iff_true, and_true]; omega)
      | (exfalso; omega)

theorem parseDay_pad2 (d : Nat) (r : List Char) (h1 : 1 ≤ d) (h2 : d ≤ 31) :
    parseDay (digitChar (d / 10) :: digitChar d :: r) = some (d, r) := by
  simp only [parseDay, digitVal_digitChar]
  split_ifs <;>
    first
      | (simp only [Option.some.injEq, Prod.mk.injEq, eq_self_iff_true, and_true]; omega)
      | (exfalso; omega)

theorem parseMin_pad2 (n : Nat) (r : List Char) (h : n ≤ 59) :
    parseMin (digitChar (n / 10) :: digitChar n :: r) = some (n, r) := by
  simp only [parseMin, digitVal_digitChar]
  split_ifs <;> simp only [Option.some.injEq, Prod.mk.injEq, eq_self_iff_true, and_true] <;> omega

theorem parseSec_pad2 (n : Nat) (r : List Char) (h : n ≤ 59) :
    parseSec (digitChar (n / 10) :: digitChar n :: r) = some (n, r) := by
  simp only [parseSec, digitVal_digitChar]
  split_ifs <;> simp only [Option.some.injEq, Prod.mk.injEq, eq_self_iff_true, and_true] <;> omega

theorem parseAmPm_ampm (h : Nat) (r : List Char) :
    parseAmPm ((ampm h).data ++ r) = some (decide (12 ≤ h), r) := by
  unfold ampm
  split
  · have : decide (12 ≤ h) = false := by simp; omega
    rw [this]; rfl
  · have : decide (12 ≤ h) = true := by simp; omega
    rw [this]; rfl

theorem skipWs_digit (n : Nat) (r : List Char) :
    skipWs (digitChar n :: r) = digitChar n :: r := by
  simp [skipWs, isSpace_digitChar]

theorem hourFrom12_hour12 (h : Nat) (hh : h ≤ 23) :
    hourFrom12 (hour12 h) (decide (12 ≤ h)) = h := by
  unfold hourFrom12 hour12
  rcases Nat.lt_or_ge h 12 with h12 | h12
  · have : decide (12 ≤ h) = false := by simp; omega
    rw [this]
    simp only [Bool.false_eq_true, if_false]
    split_ifs <;> omega
  · have : decide (12 ≤ h) = true := by simp; omega
    rw [this]
    simp only [if_true]
    split_ifs <;> omega

theorem hour12_bounds (h : Nat) : 1 ≤ hour12 h ∧ hour12 h ≤ 12 := by
  unfold hour12
  split <;> omega

theorem strftime_data (d : DT) :
    (strftime d).data =
      (pad4 d.year).data ++ '-' :: ((pad2 d.month).data ++ '-' :: ((pad2 d.day).data ++
      ' ' :: ((pad2 (hour12 d.hour)).data ++ ':' :: ((pad2 d.minute).data ++
      ':' :: ((pad2 d.second).data ++ ' ' :: ((ampm d.hour).data ++ [ ' ', 'P', 'S', 'T'])))))) := by
  simp only [strftime, String.data_append]
  rfl

theorem parseLitCI_dash (cs : List Char) : parseLitCI [ '-'] ('-' :: cs) = some cs := rfl

theorem parseLitCI_colon (cs : List Char) : parseLitCI [ ':'] (':' :: cs) = some cs := rfl

theorem parseLitCI_pst (cs : List Char) :
    parseLitCI [ 'P', 'S', 'T'] ('P' :: 'S' :: 'T' :: cs) = some cs := rfl

theorem parseWs_space (cs : List Char) : parseWs (' ' :: cs) = some (skipWs cs) := rfl

theorem skipWs_ampm (h : Nat) (r : List Char) :
    skipWs ((ampm h).data ++ r) = (ampm h).data ++ r := by
  unfold ampm
  split <;> rfl

theorem skipWs_pst (r : List Char) : skipWs ('P' :: r) = 'P' :: r := rfl

/-- A timestamp written by the program parses back to the same `datetime`:
`datetime.strptime(dt.strftime(TIMESTAMP_FMT), TIMESTAMP_FMT)` recovers `dt`. -/
theorem strptime_strftime (d : DT) (hv : d.Valid) : strptime (strftime d) = some d := by
  obtain ⟨hy1, hy2, hm1, hm2, hd1, hd2, hh, hmi, hs⟩ := hv
  have hd31 : d.day ≤ 31 := by
    have : daysInMonth d.year d.month ≤ 31 := by
      unfold daysInMonth
      split_ifs <;> omega
    omega
  obtain ⟨hi1, hi2⟩ := hour12_bounds d.hour
  simp only [strptime, strftime_data, pad2_data, pad4_data, List.cons_append,
    List.nil_append, List.append_assoc, parseYear4_pad4 _ _ hy1 hy2, parseLitCI_dash,
    parseNum1to12_pad2 _ _ hm1 hm2, parseDay_pad2 _ _ hd1 hd31, parseWs_space,
    skipWs_digit, parseNum1to12_pad2 _ _ hi1 hi2, parseLitCI_colon,
    parseMin_pad2 _ _ hmi, parseSec_pad2 _ _ hs, skipWs_ampm, parseAmPm_ampm,
    skipWs_pst, parseLitCI_pst, hourFrom12_hour12 _ hh]
  rw [if_pos ⟨trivial, by omega, by omega, by omega⟩]

/-! ### The message store -/

/-- A row of the `messages` table created by `fast_app("data/guestbook.db",
id=int, name=str, message=str, timestamp=str, pk="id")`. -/
structure Message where
  id : Nat
  name : String
  message : String
  timestamp : String
deriving DecidableEq, Repr

/-- The persisted table: its rows in native (insertion/rowid) order. -/
structure Store where
  rows : List Message
deriving DecidableEq, Repr

/-- `list(messages_table())`: every stored row, in the store's native order. -/
def Store.fetchAll (s : Store) : List Message := s.rows

/-- Modelled from the spec: the `id` value is assigned by the database layer
(`fast_app` creates the table with `pk="id"`; the insert in `add_message`
passes no id), which is not part of `src/`.  Spec §3: "`id`: unique integer,
assigned by the store on insertion (primary key, monotonic, never reused)".
Modelled as SQLite rowid assignment: one more than the largest existing id
(1 for an empty table). -/
def Store.freshId (s : Store) : Nat :=
  (s.rows.map Message.id).foldr max 0 + 1

/-- Modelled from the spec: `messages_table.insert(name=..., message=...,
timestamp=...)` (database layer, not in `src/`): appends one new row with a
fresh id; existing rows are untouched (spec §3: the store is append-only). -/
def Store.insert (s : Store) (name message timestamp : String) : Store :=
  ⟨s.rows ++ [⟨s.freshId, name, message, timestamp⟩]⟩

/-- `add_message(messages_table, name, message)` from `src/main.py`; the
clock reading `get_pst_time()` is the explicit parameter `now`. -/
def add_message (messages_table : Store) (now : DT) (name message : String) : Store :=
  messages_table.insert name message (strftime now)

/-! ### `get_all_messages`: fetch and sort descending by parsed timestamp -/

/-- The sort key of `sorted(messages, key=lambda x: datetime.strptime(
x["timestamp"], TIMESTAMP_FMT), reverse=True)`, computed for each row in
native order; the first `ValueError` aborts the whole call. -/
def attachKeys : List Message → Option (List (Message × DT))
  | [] => some []
  | m :: rest =>
    match strptime m.timestamp with
    | none => none
    | some k =>
      match attachKeys rest with
      | none => none
      | some ps => some ((m, k) :: ps)

/-- The ordering used by `sorted(..., reverse=True)`: `a` may precede `b`
unless `a`'s key is strictly below `b`'s. -/
def msgLe (a b : Message × DT) : Prop := ¬ DT.lt a.2 b.2

instance : DecidableRel msgLe := fun a b => by unfold msgLe; infer_instance

instance : IsTotal (Message × DT) msgLe :=
  ⟨fun a b => by
    unfold msgLe
    rcases Classical.em (DT.lt a.2 b.2) with h | h
    · exact Or.inr (DT.lt_asymm h)
    · exact Or.inl h⟩

instance : IsTrans (Message × DT) msgLe :=
  ⟨fun a b c hab hbc => by
    unfold msgLe at *
    intro hac
    rcases Classical.em (DT.lt a.2 b.2) with h | h
    · exact hab h
    · rcases Classical.em (DT.lt b.2 c.2) with h2 | h2
      · exact hbc h2
      · have := DT.eq_of_not_lt h (by
          intro hba
          exact hbc (DT.lt_trans hba hac))
        rw [this] at hac
        exact hbc hac⟩

/-- `get_all_messages(messages_table)` from `src/main.py`: read every row and
sort descending by the `datetime` parsed from its timestamp string.  Python's
`sorted` with `reverse=True` is the stable descending sort, i.e. the unique
stable sort for the total preorder `msgLe`; it is embedded as the stable
insertion sort.  A `ValueError` from `strptime` propagates
(`Except.error`). -/
def get_all_messages (messages_table : Store) : Except String (List Message) :=
  let messages := messages_table.fetchAll
  match attachKeys messages with
  | none => Except.error "time data does not match format"
  | some keyed => Except.ok ((List.insertionSort msgLe keyed).map Prod.fst)

/-! ### HTML fragments

FastHTML element values (`Div`, `Span`, ...) are embedded as a tree of
elements and text leaves.  Attribute names are stored in their rendered form
(`cls` ↦ `class`, `hx_get` ↦ `hx-get`, `fr` ↦ `for`). -/

inductive Node where
  | text : String → Node
  | el : String → List (String × String) → List Node → Node
deriving Repr

/-- Modelled from the spec: FastHTML's serializer (`to_xml`, library code not
in `src/`) escapes text children and attribute values; spec §4.2 requires
"`name` and `message` escaped for safe HTML embedding".  The replacements of
Python `html.escape`. -/
def escapeHtml (s : String) : String :=
  s.data.foldr
    (fun c acc =>
      (if c = '&' then "&amp;"
       else if c = '<' then "&lt;"
       else if c = '>' then "&gt;"
       else if c = '"' then "&quot;"
       else if c = Char.ofNat 39 then "&#x27;"
       else String.mk [c]) ++ acc) ""

def renderAttr (p : String × String) : String :=
  " " ++ p.1 ++ "=\"" ++ escapeHtml p.2 ++ "\""

def renderAttrs : List (String × String) → String
  | [] => ""
  | p :: ps => renderAttr p ++ renderAttrs ps

mutual

/-- Serialize a fragment to markup, escaping text leaves. -/
def Node.render : Node → String
  | .text s => escapeHtml s
  | .el tag a cs => "<" ++ tag ++ renderAttrs a ++ ">" ++ Node.renderList cs ++ "</" ++ tag ++ ">"

def Node.renderList : List Node → String
  | [] => ""
  | c :: cs => c.render ++ Node.renderList cs

end

/-- The list item built for one message inside `create_message_list`
(the body of the list comprehension in `src/main.py`). -/
def message_item (msg : Message) : Node :=
  .el "div" [("class", "message")]
    [.el "div" [("class", "message-content")]
      [.el "span" [("class", "message-name")] [.text (msg.name ++ ": ")],
       .el "span" [("class", "message-text")] [.text msg.message],
       .el "small" [("class", "message-timestamp")] [.text msg.timestamp]]]

/-- `create_message_list(messages)` from `src/main.py`. -/
def create_message_list (messages : List Message) : Node :=
  if messages = [] then
    .el "div" [("id", "message-list"), ("class", "empty-state")]
      [.el "p" [] [.text "No messages yet. Be the first to say hi!"]]
  else
    .el "div" [("id", "message-list"), ("class", "message-list")]
      (messages.map message_item)

/-- `create_guest_counter(count)` from `src/main.py`. -/
def create_guest_counter (count : Nat) : Node :=
  .el "div" [("id", "guest-counter"), ("class", "guest-counter")]
    [.text (toString count ++ " guests have said hi so far "),
     .el "span" [("class", "emoji")] [.text "👋"]]

/-! ### Request handlers

Each handler is a function of the shared store (the module-level `messages`
table); it returns the store after the request together with the response
(`Except.error` models an exception propagating to a 5xx response).  `post`
additionally takes the clock reading and the two form fields. -/

/-- The `GET /` handler (`get()` in `src/main.py`; named `get_root` here
because a bare `get` clashes with standard library names). -/
def get_root (s : Store) : Store × Except String (List Node) :=
  match get_all_messages s with
  | .error e => (s, .error e)
  | .ok all_messages =>
    let guest_counter := create_guest_counter all_messages.length
    let message_list := create_message_list all_messages
    let form : Node :=
      .el "form"
        [("id", "message-form"), ("hx-post", "/submit-message"),
         ("hx-target", "#update-area"), ("hx-swap", "innerHTML")]
        [.el "div" [("class", "input-group")]
          [.el "div" [("class", "input-wrapper")]
            [.el "label" [("for", "name")] [.text "Name:"],
             .el "div" [("class", "input-with-counter")]
              [.el "input"
                [("type", "text"), ("id", "name"), ("name", "name"), ("required", ""),
                 ("placeholder", "Enter your name"), ("maxlength", toString MAX_NAME_CHAR),
                 ("oninput", "updateCharCount(\x27name\x27, \x27nameCount\x27, " ++
                   toString MAX_NAME_CHAR ++ ")")] [],
               .el "span" [("id", "nameCount"), ("class", "char-count")] []]],
           .el "div" [("class", "input-wrapper")]
            [.el "label" [("for", "message")] [.text "Message:"],
             .el "div" [("class", "input-with-counter")]
              [.el "input"
                [("type", "text"), ("id", "message"), ("name", "message"), ("required", ""),
                 ("placeholder", "Enter your message"), ("maxlength", toString MAX_MESSAGE_CHAR),
                 ("oninput", "updateCharCount(\x27message\x27, \x27messageCount\x27, " ++
                   toString MAX_MESSAGE_CHAR ++ ")")] [],
               .el "span" [("id", "messageCount"), ("class", "char-count")] []]]],
         .el "button" [("type", "submit")] [.text "Submit"]]
    let footer : Node :=
      .el "div" [("class", "footer")]
        [.text "made with ❤️ by ",
         .el "a" [("href", "https://x.com/author"), ("target", "_blank")] [.text "author"]]
    (s, .ok
      [.el "title" [] [.text "Simple Guestbook"],
       .el "main" []
        [.el "h1" [] [.text "✍️ Guestbook"],
         form,
         .el "h2" [] [.text "🪵 log"],
         .el "div"
          [("id", "update-area"), ("hx-get", "/update-messages"), ("hx-trigger", "every 10s")]
          [guest_counter, message_list],
         footer]])

/-- The `POST /submit-message` handler (`post(name, message)` in
`src/main.py`): insert unconditionally, then re-read and re-render the
update-area fragment. -/
def post (s : Store) (now : DT) (name message : String) : Store × Except String Node :=
  let s2 := add_message s now name message
  match get_all_messages s2 with
  | .error e => (s2, .error e)
  | .ok all_messages =>
    let guest_counter := create_guest_counter all_messages.length
    let message_list := create_message_list all_messages
    (s2, .ok
      (.el "div"
        [("id", "update-area"), ("hx-get", "/update-messages"), ("hx-trigger", "every 10s")]
        [guest_counter, message_list]))

/-- The `GET /update-messages` handler (`get_update_messages()` in
`src/main.py`). -/
def get_update_messages (s : Store) : Store × Except String Node :=
  match get_all_messages s with
  | .error e => (s, .error e)
  | .ok all_messages =>
    let guest_counter := create_guest_counter all_messages.length
    let message_list := create_message_list all_messages
    (s, .ok
      (.el "div"
        [("id", "update-area"), ("hx-get", "/update-messages"), ("hx-trigger", "every 10s")]
        [guest_counter, message_list]))

/-! ### Helper lemmas -/

/-- Two sorted lists that are permutations of each other are equal, given
antisymmetry of the order on the members involved. -/
theorem sorted_perm_eq {α : Type} {r : α → α → Prop} :
    ∀ {l₁ l₂ : List α}, l₁.Perm l₂ → l₁.Pairwise r → l₂.Pairwise r →
      (∀ a ∈ l₁, ∀ b ∈ l₁, r a b → r b a → a = b) → l₁ = l₂ := by
  intro l₁
  induction l₁ with
  | nil =>
    intro l₂ hp _ _ _
    exact (hp.symm.eq_nil).symm
  | cons a t ih =>
    intro l₂ hp hs₁ hs₂ anti
    cases l₂ with
    | nil => exact absurd hp.eq_nil (by simp)
    | cons b t₂ =>
      have hab : a = b := by
        have ha₂ : a ∈ b :: t₂ := hp.mem_iff.mp (by simp)
        have hb₁ : b ∈ a :: t := hp.mem_iff.mpr (by simp)
        rcases List.mem_cons.mp ha₂ with h | h
        · exact h
        · rcases List.mem_cons.mp hb₁ with h2 | h2
          · exact h2.symm
          · have rab : r a b := (List.pairwise_cons.mp hs₁).1 b h2
            have rba : r b a := (List.pairwise_cons.mp hs₂).1 a h
            exact anti a (by simp) b hb₁ rab rba
      subst hab
      have ht : t = t₂ :=
        ih hp.cons_inv (List.pairwise_cons.mp hs₁).2 (List.pairwise_cons.mp hs₂).2
          (fun x hx y hy => anti x (by simp [hx]) y (by simp [hy]))
      rw [ht]

/-- Strengthen a `Pairwise` using membership. -/
theorem pairwise_imp_mem {α : Type} {r s : α → α → Prop} :
    ∀ {l : List α}, (∀ a ∈ l, ∀ b ∈ l, r a b → s a b) → l.Pairwise r → l.Pairwise s := by
  intro l
  induction l with
  | nil => intro _ _; exact List.Pairwise.nil
  | cons a t ih =>
    intro himp hp
    rcases List.pairwise_cons.mp hp with ⟨hhead, htail⟩
    exact List.pairwise_cons.mpr
      ⟨fun b hb => himp a (by simp) b (by simp [hb]) (hhead b hb),
       ih (fun x hx y hy => himp x (by simp [hx]) y (by simp [hy])) htail⟩

/-- The default key used to state `attachKeys` as a `map`. -/
def keyOf (m : Message) : DT := (strptime m.timestamp).getD ⟨0, 0, 0, 0, 0, 0⟩

theorem attachKeys_of_forall_isSome :
    ∀ {msgs : List Message}, (∀ m ∈ msgs, (strptime m.timestamp).isSome) →
      attachKeys msgs = some (msgs.map fun m => (m, keyOf m)) := by
  intro msgs
  induction msgs with
  | nil => intro _; rfl
  | cons m rest ih =>
    intro h
    have hm : (strptime m.timestamp).isSome := h m (by simp)
    rcases Option.isSome_iff_exists.mp hm with ⟨k, hk⟩
    have : keyOf m = k := by rw [keyOf, hk]; rfl
    simp only [attachKeys, hk, ih (fun x hx => h x (by simp [hx])), this, List.map_cons]

theorem attachKeys_none_of_mem :
    ∀ {msgs : List Message} {m : Message}, m ∈ msgs → strptime m.timestamp = none →
      attachKeys msgs = none := by
  intro msgs
  induction msgs with
  | nil => intro m h; simp at h
  | cons x rest ih =>
    intro m hmem hnone
    rcases List.mem_cons.mp hmem with h | h
    · subst h
      simp only [attachKeys, hnone]
    · simp only [attachKeys]
      rw [ih h hnone]
      cases strptime x.timestamp <;> rfl

theorem attachKeys_mem :
    ∀ {msgs : List Message} {ps : List (Message × DT)}, attachKeys msgs = some ps →
      ∀ p ∈ ps, p.1 ∈ msgs ∧ strptime p.1.timestamp = some p.2 := by
  intro msgs
  induction msgs with
  | nil =>
    intro ps h p hp
    simp only [attachKeys, Option.some.injEq] at h
    subst h
    simp at hp
  | cons m rest ih =>
    intro ps h p hp
    simp only [attachKeys] at h
    cases hk : strptime m.timestamp with
    | none => rw [hk] at h; exact absurd h (by simp)
    | some k =>
      rw [hk] at h
      cases hr : attachKeys rest with
      | none => rw [hr] at h; exact absurd h (by simp)
      | some ps2 =>
        rw [hr] at h
        simp only [Option.some.injEq] at h
        subst h
        rcases List.mem_cons.mp hp with hph | hph
        · subst hph
          exact ⟨by simp, hk⟩
        · rcases ih hr p hph with ⟨h1, h2⟩
          exact ⟨by simp [h1], h2⟩

theorem attachKeys_map_fst :
    ∀ {msgs : List Message} {ps : List (Message × DT)}, attachKeys msgs = some ps →
      ps.map Prod.fst = msgs := by
  intro msgs
  induction msgs with
  | nil =>
    intro ps h
    simp only [attachKeys, Option.some.injEq] at h
    subst h; rfl
  | cons m rest ih =>
    intro ps h
    simp only [attachKeys] at h
    cases hk : strptime m.timestamp with
    | none => rw [hk] at h; exact absurd h (by simp)
    | some k =>
      rw [hk] at h
      cases hr : attachKeys rest with
      | none => rw [hr] at h; exact absurd h (by simp)
      | some ps2 =>
        rw [hr] at h
        simp only [Option.some.injEq] at h
        subst h
        simp [ih hr]

theorem le_foldr_max {a : Nat} : ∀ {l : List Nat}, a ∈ l → a ≤ l.foldr max 0 := by
  intro l
  induction l with
  | nil => intro h; simp at h
  | cons x t ih =>
    intro h
    rcases List.mem_cons.mp h with h | h
    · subst h; simp only [List.foldr_cons]; omega
    · have := ih h
      simp only [List.foldr_cons]
      omega

theorem mem_id_lt_freshId {s : Store} {m : Message} (h : m ∈ s.rows) :
    m.id < s.freshId := by
  have : m.id ∈ s.rows.map Message.id := List.mem_map_of_mem Message.id h
  have := le_foldr_max this
  unfold Store.freshId
  omega

theorem foldr_max_append (x : Nat) :
    ∀ (l : List Nat), (l ++ [x]).foldr max 0 = max (l.foldr max 0) x := by
  intro l
  induction l with
  | nil => simp
  | cons y t ih =>
    simp only [List.cons_append, List.foldr_cons, ih]
    omega

theorem freshId_insert (s : Store) (n m t : String) :
    (s.insert n m t).freshId = s.freshId + 1 := by
  unfold Store.insert Store.freshId
  simp only [List.map_append, List.map_cons, List.map_nil]
  rw [foldr_max_append]
  omega

theorem freshId_add_message (s : Store) (now : DT) (n m : String) :
    (add_message s now n m).freshId = s.freshId + 1 :=
  freshId_insert s n m (strftime now)

/-- `p` begins the character list `s`. -/
def beginsWith : List Char → List Char → Bool
  | _, [] => true
  | [], _ :: _ => false
  | c :: cs, p :: ps => c = p && beginsWith cs ps

def containsSubAux (p : List Char) : List Char → Bool
  | [] => beginsWith [] p
  | c :: cs => beginsWith (c :: cs) p || containsSubAux p cs

/-- `pat` occurs as a contiguous substring of `s`. -/
def containsSub (s pat : String) : Bool := containsSubAux pat.data s.data

/-- The store after a `post`, whichever way the re-read went. -/
theorem post_fst (s : Store) (now : DT) (name message : String) :
    (post s now name message).1 = add_message s now name message := by
  simp only [post]
  split <;> rfl

theorem get_update_messages_fst (s : Store) : (get_update_messages s).1 = s := by
  simp only [get_update_messages]
  split <;> rfl

theorem get_root_fst (s : Store) : (get_root s).1 = s := by
  simp only [get_root]
  split <;> rfl

/-- A successful read returns a permutation of the stored rows. -/
theorem gam_ok_perm {s : Store} {l : List Message}
    (h : get_all_messages s = Except.ok l) : s.fetchAll.Perm l := by
  simp only [get_all_messages] at h
  cases hk : attachKeys s.fetchAll with
  | none => rw [hk] at h; simp at h
  | some keyed =>
    rw [hk] at h
    simp only [Except.ok.injEq] at h
    subst h
    have h1 : (List.insertionSort msgLe keyed).map Prod.fst |>.Perm (keyed.map Prod.fst) :=
      (List.perm_insertionSort msgLe keyed).map Prod.fst
    rw [attachKeys_map_fst hk] at h1
    exact h1.symm

/-- When every stored timestamp parses, the read succeeds. -/
theorem gam_ok_of_forall {s : Store}
    (h : ∀ m ∈ s.fetchAll, (strptime m.timestamp).isSome) :
    get_all_messages s =
      Except.ok ((List.insertionSort msgLe
        (s.fetchAll.map fun m => (m, keyOf m))).map Prod.fst) := by
  simp only [get_all_messages, attachKeys_of_forall_isSome h]

/-- C2: a stored timestamp that does not parse under `TIMESTAMP_FMT` makes
`get_all_messages` fail with an error — propagated by every handler that
calls it: `GET /`, `GET /update-messages`, and `POST /submit-message`
(whose re-read after the insert still sees the bad row) — rather than skip
the message; and a successful call returns a permutation of the store
contents, so no message is ever omitted. -/
theorem get_all_messages_fails_loudly :
    (∀ s : Store, (∃ m ∈ s.fetchAll, strptime m.timestamp = none) →
        get_all_messages s = Except.error "time data does not match format") ∧
    (∀ (s : Store) (l : List Message), get_all_messages s = Except.ok l →
        s.fetchAll.Perm l) ∧
    (∀ (s : Store) (e : String), get_all_messages s = Except.error e →
        (get_update_messages s).2 = Except.error e ∧
        (get_root s).2 = Except.error e) ∧
    (∀ (s : Store) (now : DT) (name message : String),
        (∃ m ∈ s.fetchAll, strptime m.timestamp = none) →
        (post s now name message).2 =
          Except.error "time data does not match format") := by
  refine ⟨?_, ?_, ?_, ?_⟩
  · intro s ⟨m, hm, hn⟩
    simp only [get_all_messages, attachKeys_none_of_mem hm hn]
  · intro s l h
    exact gam_ok_perm h
  · intro s e h
    constructor
    · simp only [get_update_messages, h]
    · simp only [get_root, h]
  · intro s now name message ⟨m, hm, hn⟩
    have hm2 : m ∈ (add_message s now name message).fetchAll :=
      List.mem_append_left _ hm
    have hbad : get_all_messages (add_message s now name message) =
        Except.error "time data does not match format" := by
      simp only [get_all_messages, attachKeys_none_of_mem hm2 hn]
    simp only [post, hbad]

theorem get_all_messages_fails_loudly_witness :
    (∃ m ∈ (Store.mk [⟨1, "Ann", "hi", "not a timestamp"⟩]).fetchAll,
        strptime m.timestamp = none) ∧
    get_all_messages (Store.mk [⟨1, "Ann", "hi", "not a timestamp"⟩]) =
      Except.error "time data does not match format" ∧
    (post (Store.mk [⟨1, "Ann", "hi", "not a timestamp"⟩]) ⟨2024, 1, 2, 3, 4, 5⟩
        "Bob" "hello").2 = Except.error "time data does not match format" :=
  ⟨⟨⟨1, "Ann", "hi", "not a timestamp"⟩, by decide, by decide⟩,
   get_all_messages_fails_loudly.1 (Store.mk [⟨1, "Ann", "hi", "not a timestamp"⟩])
     ⟨⟨1, "Ann", "hi", "not a timestamp"⟩, by decide, by decide⟩,
   get_all_messages_fails_loudly.2.2.2 (Store.mk [⟨1, "Ann", "hi", "not a timestamp"⟩])
     ⟨2024, 1, 2, 3, 4, 5⟩ "Bob" "hello"
     ⟨⟨1, "Ann", "hi", "not a timestamp"⟩, by decide, by decide⟩⟩

/-- C4: the fragment returned by `POST /submit-message` is exactly the
fragment `GET /update-messages` returns on the post-insertion store. -/
theorem post_fragment_eq_refresh (s : Store) (now : DT) (name message : String) :
    (post s now name message).2 = (get_update_messages (post s now name message).1).2 := by
  rw [post_fst]
  simp only [post, get_update_messages]

/-- C5: the refresh handler does not change the store, and two successive
refresh reads with no intervening insertion return the same fragment — the
response is a function of the store contents alone. -/
theorem refresh_read_deterministic (s : Store) :
    (get_update_messages s).1 = s ∧
    (get_update_messages ((get_update_messages s).1)).2 = (get_update_messages s).2 := by
  refine ⟨get_update_messages_fst s, ?_⟩
  rw [get_update_messages_fst s]

/-- C8: `add_message` stores a timestamp computed server-side from the clock
reading alone — the same for any submitted `name`/`message` — in the fixed
`%Y-%m-%d %I:%M:%S %p PST` format, as witnessed by `strptime` recovering the
clock reading exactly. -/
theorem timestamp_server_side_format (s : Store) (now : DT) (name message : String) :
    (add_message s now name message).rows =
      s.rows ++ [⟨s.freshId, name, message, strftime now⟩] ∧
    (∀ name2 message2 : String,
      (add_message s now name2 message2).rows.map Message.timestamp =
      (add_message s now name message).rows.map Message.timestamp) ∧
    (now.Valid → strptime (strftime now) = some now) := by
  refine ⟨rfl, fun _ _ => by simp [add_message, Store.insert], strptime_strftime now⟩

theorem timestamp_server_side_format_witness :
    DT.Valid ⟨2024, 5, 6, 17, 8, 9⟩ ∧
    strptime (strftime ⟨2024, 5, 6, 17, 8, 9⟩) = some ⟨2024, 5, 6, 17, 8, 9⟩ ∧
    (add_message ⟨[]⟩ ⟨2024, 5, 6, 17, 8, 9⟩ "Ann" "hi").rows =
      [⟨1, "Ann", "hi", "2024-05-06 05:08:09 PM PST"⟩] :=
  ⟨by decide,
   (timestamp_server_side_format ⟨[]⟩ ⟨2024, 5, 6, 17, 8, 9⟩ "Ann" "hi").2.2 (by decide),
   by decide⟩

/-- C9: `create_message_list []` is the non-empty placeholder fragment
(holding the "No messages yet" text), never an empty container; on a
non-empty list it produces one `message_item` per message, in the given
order, each showing the message's `name`, `message` and `timestamp`. -/
theorem message_list_empty_and_order :
    (create_message_list [] =
      Node.el "div" [("id", "message-list"), ("class", "empty-state")]
        [Node.el "p" [] [Node.text "No messages yet. Be the first to say hi!"]] ∧
     containsSub (Node.render (create_message_list [])) "No messages yet" = true) ∧
    (∀ msgs : List Message, msgs ≠ [] →
      create_message_list msgs =
        Node.el "div" [("id", "message-list"), ("class", "message-list")]
          (msgs.map message_item) ∧
      (msgs.map message_item).length = msgs.length) ∧
    (∀ m : Message, message_item m =
      Node.el "div" [("class", "message")]
        [Node.el "div" [("class", "message-content")]
          [Node.el "span" [("class", "message-name")] [Node.text (m.name ++ ": ")],
           Node.el "span" [("class", "message-text")] [Node.text m.message],
           Node.el "small" [("class", "message-timestamp")] [Node.text m.timestamp]]]) := by
  refine ⟨⟨rfl, by decide⟩, ?_, fun m => rfl⟩
  intro msgs h
  rw [create_message_list, if_neg h]
  exact ⟨rfl, msgs.length_map message_item⟩

theorem message_list_empty_and_order_witness :
    ([⟨1, "Ann", "hi", "ts"⟩] : List Message) ≠ [] ∧
    create_message_list [⟨1, "Ann", "hi", "ts"⟩] =
      Node.el "div" [("id", "message-list"), ("class", "message-list")]
        [message_item ⟨1, "Ann", "hi", "ts"⟩] :=
  ⟨by simp,
   (message_list_empty_and_order.2.1 [⟨1, "Ann", "hi", "ts"⟩] (by simp)).1⟩

/-- C10: `GET /` and `GET /update-messages` leave the store exactly as it
was; `POST /submit-message` appends exactly one new row and leaves every
previously stored row unchanged — no operation updates or deletes a row. -/
theorem handlers_frame_effects (s : Store) (now : DT) (name message : String) :
    (get_root s).1 = s ∧
    (get_update_messages s).1 = s ∧
    (post s now name message).1.rows =
      s.rows ++ [⟨s.freshId, name, message, strftime now⟩] := by
  refine ⟨get_root_fst s, get_update_messages_fst s, ?_⟩
  rw [post_fst]
  rfl

/-- C3: the submit handler performs no validation whatsoever on the two form
strings: for any `name`/`message` (empty or arbitrarily long) it inserts a
row carrying exactly the submitted strings, responds successfully, and the
new row is returned by the next read. -/
theorem post_accepts_any_strings (s : Store) (now : DT) (name message : String)
    (hv : now.Valid) (hall : ∀ m ∈ s.fetchAll, (strptime m.timestamp).isSome) :
    (post s now name message).1.fetchAll =
      s.fetchAll ++ [⟨s.freshId, name, message, strftime now⟩] ∧
    (∃ frag, (post s now name message).2 = Except.ok frag) ∧
    (∃ l, get_all_messages (post s now name message).1 = Except.ok l ∧
      (⟨s.freshId, name, message, strftime now⟩ : Message) ∈ l) := by
  have hrows : (add_message s now name message).fetchAll =
      s.fetchAll ++ [⟨s.freshId, name, message, strftime now⟩] := rfl
  have hall2 : ∀ m ∈ (add_message s now name message).fetchAll,
      (strptime m.timestamp).isSome := by
    intro m hm
    rw [hrows] at hm
    rcases List.mem_append.mp hm with h | h
    · exact hall m h
    · simp only [List.mem_singleton] at h
      subst h
      simp [strptime_strftime now hv]
  have hok := gam_ok_of_forall hall2
  have hperm := gam_ok_perm hok
  have hmem : (⟨s.freshId, name, message, strftime now⟩ : Message) ∈
      (add_message s now name message).fetchAll := by
    rw [hrows]
    exact List.mem_append_right _ (by simp)
  have hfrag : (post s now name message).2 =
      Except.ok (Node.el "div"
        [("id", "update-area"), ("hx-get", "/update-messages"), ("hx-trigger", "every 10s")]
        [create_guest_counter (List.map Prod.fst (List.insertionSort msgLe
            (List.map (fun m => (m, keyOf m)) (add_message s now name message).fetchAll))).length,
         create_message_list (List.map Prod.fst (List.insertionSort msgLe
            (List.map (fun m => (m, keyOf m)) (add_message s now name message).fetchAll)))]) := by
    simp only [post, hok]
  refine ⟨by rw [post_fst]; exact hrows, ⟨_, hfrag⟩,
    ⟨List.map Prod.fst (List.insertionSort msgLe
        (List.map (fun m => (m, keyOf m)) (add_message s now name message).fetchAll)),
     by rw [post_fst]; exact hok,
     hperm.mem_iff.mp hmem⟩⟩

theorem post_accepts_any_strings_witness :
    DT.Valid ⟨2024, 5, 6, 17, 8, 9⟩ ∧
    (∀ m ∈ (Store.mk []).fetchAll, (strptime m.timestamp).isSome) ∧
    ((post (Store.mk []) ⟨2024, 5, 6, 17, 8, 9⟩ "" "").1.fetchAll =
      (Store.mk []).fetchAll ++
        [⟨(Store.mk []).freshId, "", "", strftime ⟨2024, 5, 6, 17, 8, 9⟩⟩] ∧
     (∃ frag, (post (Store.mk []) ⟨2024, 5, 6, 17, 8, 9⟩ "" "").2 = Except.ok frag) ∧
     (∃ l, get_all_messages (post (Store.mk []) ⟨2024, 5, 6, 17, 8, 9⟩ "" "").1 =
        Except.ok l ∧
       (⟨(Store.mk []).freshId, "", "", strftime ⟨2024, 5, 6, 17, 8, 9⟩⟩ : Message) ∈ l)) :=
  ⟨by decide, by simp [Store.fetchAll],
   post_accepts_any_strings (Store.mk []) ⟨2024, 5, 6, 17, 8, 9⟩ "" ""
     (by decide) (by simp [Store.fetchAll])⟩

/-! ### Sequences of inserts (for the id-monotonicity claim) -/

/-- Run `add_message` once per input (clock reading, name, message). -/
def insertMany (s : Store) : List (DT × String × String) → Store
  | [] => s
  | i :: rest => insertMany (add_message s i.1 i.2.1 i.2.2) rest

/-- The ids the store assigns along such a run, in call order. -/
def assignedIds (s : Store) : List (DT × String × String) → List Nat
  | [] => []
  | i :: rest => s.freshId :: assignedIds (add_message s i.1 i.2.1 i.2.2) rest

theorem assignedIds_closed (inputs : List (DT × String × String)) :
    ∀ s : Store,
      assignedIds s inputs = (List.range inputs.length).map (fun k => s.freshId + k) := by
  induction inputs with
  | nil => intro s; rfl
  | cons i rest ih =>
    intro s
    simp only [assignedIds, ih, freshId_add_message, List.length_cons]
    rw [List.range_succ_eq_map]
    simp only [List.map_cons, List.map_map, Nat.add_zero]
    refine congrArg₂ List.cons rfl ?_
    apply List.map_congr_left
    intro k _
    simp only [Function.comp_apply]
    omega

theorem insertMany_rows (inputs : List (DT × String × String)) :
    ∀ s : Store, ∃ new, (insertMany s inputs).rows = s.rows ++ new ∧
      new.map Message.id = assignedIds s inputs := by
  induction inputs with
  | nil => intro s; exact ⟨[], by simp [insertMany], rfl⟩
  | cons i rest ih =>
    intro s
    rcases ih (add_message s i.1 i.2.1 i.2.2) with ⟨new2, hrows, hids⟩
    refine ⟨⟨s.freshId, i.2.1, i.2.2, strftime i.1⟩ :: new2, ?_, ?_⟩
    · show (insertMany (add_message s i.1 i.2.1 i.2.2) rest).rows = _
      rw [hrows]
      simp [add_message, Store.insert]
    · simp only [List.map_cons, hids]
      rfl

/-- C6: across any sequence of insert calls, the assigned ids are pairwise
distinct and strictly increasing in call order, each fresh id exceeds every
id already in the store, and the run only appends rows (carrying exactly
those ids), so an id is never reused or reassigned. -/
theorem insert_ids_unique_monotone (inputs : List (DT × String × String)) (s : Store) :
    (assignedIds s inputs).Pairwise (· < ·) ∧
    (assignedIds s inputs).Nodup ∧
    (∀ a ∈ assignedIds s inputs, ∀ m ∈ s.rows, m.id < a) ∧
    (∃ new, (insertMany s inputs).rows = s.rows ++ new ∧
      new.map Message.id = assignedIds s inputs) := by
  have hpw : (assignedIds s inputs).Pairwise (· < ·) := by
    rw [assignedIds_closed]
    exact List.Pairwise.map _ (fun a b h => by omega) (List.pairwise_lt_range _)
  refine ⟨hpw, hpw.imp Nat.ne_of_lt, ?_, insertMany_rows inputs s⟩
  intro a ha m hm
  rw [assignedIds_closed] at ha
  rcases List.mem_map.mp ha with ⟨k, _, rfl⟩
  have := mem_id_lt_freshId hm
  omega

theorem DT.lt_irrefl (a : DT) : ¬ DT.lt a a := by
  unfold DT.lt; omega

/-- C1: messages written at strictly increasing insertion times t1 < t2 < t3
come back from `get_all_messages` as [t3, t2, t1] — most recent first —
whatever the store's native order; and in general every successful read is
sorted descending by the `datetime` parsed from each timestamp string. -/
theorem round_trip_ordering :
    (∀ (m1 m2 m3 : Message) (t1 t2 t3 : DT) (rows : List Message),
      t1.Valid → t2.Valid → t3.Valid →
      DT.lt t1 t2 → DT.lt t2 t3 →
      m1.timestamp = strftime t1 → m2.timestamp = strftime t2 → m3.timestamp = strftime t3 →
      rows.Perm [m1, m2, m3] →
      get_all_messages ⟨rows⟩ = Except.ok [m3, m2, m1]) ∧
    (∀ (s : Store) (l : List Message), get_all_messages s = Except.ok l →
      l.Pairwise (fun a b => ∀ ka kb, strptime a.timestamp = some ka →
        strptime b.timestamp = some kb → ¬ DT.lt ka kb)) := by
  constructor
  · intro m1 m2 m3 t1 t2 t3 rows hv1 hv2 hv3 h12 h23 hm1 hm2 hm3 hperm
    have h13 : DT.lt t1 t3 := DT.lt_trans h12 h23
    have hp1 : strptime m1.timestamp = some t1 := by rw [hm1]; exact strptime_strftime t1 hv1
    have hp2 : strptime m2.timestamp = some t2 := by rw [hm2]; exact strptime_strftime t2 hv2
    have hp3 : strptime m3.timestamp = some t3 := by rw [hm3]; exact strptime_strftime t3 hv3
    have hk1 : keyOf m1 = t1 := by rw [keyOf, hp1]; rfl
    have hk2 : keyOf m2 = t2 := by rw [keyOf, hp2]; rfl
    have hk3 : keyOf m3 = t3 := by rw [keyOf, hp3]; rfl
    have hall : ∀ m ∈ (Store.mk rows).fetchAll, (strptime m.timestamp).isSome := by
      intro m hm
      have : m ∈ [m1, m2, m3] := hperm.mem_iff.mp hm
      rcases List.mem_cons.mp this with rfl | h
      · simp [hp1]
      rcases List.mem_cons.mp h with rfl | h
      · simp [hp2]
      rcases List.mem_cons.mp h with rfl | h
      · simp [hp3]
      · simp at h
    have hok := gam_ok_of_forall hall
    have hmap3 : ([m1, m2, m3].map fun m => (m, keyOf m)) =
        [(m1, t1), (m2, t2), (m3, t3)] := by
      simp [hk1, hk2, hk3]
    have hpermk : (List.insertionSort msgLe ((Store.mk rows).fetchAll.map
          fun m => (m, keyOf m))).Perm [(m3, t3), (m2, t2), (m1, t1)] := by
      refine ((List.perm_insertionSort msgLe _).trans ((hperm.map _).trans ?_))
      rw [hmap3]
      exact (List.reverse_perm [(m1, t1), (m2, t2), (m3, t3)]).symm
    have hsorted1 : (List.insertionSort msgLe ((Store.mk rows).fetchAll.map
        fun m => (m, keyOf m))).Pairwise msgLe :=
      List.sorted_insertionSort msgLe _
    have hsorted2 : ([(m3, t3), (m2, t2), (m1, t1)] : List (Message × DT)).Pairwise msgLe := by
      refine List.pairwise_cons.mpr ⟨?_, List.pairwise_cons.mpr ⟨?_, ?_⟩⟩
      · intro p hp
        rcases List.mem_cons.mp hp with rfl | hp
        · exact DT.lt_asymm h23
        rcases List.mem_cons.mp hp with rfl | hp
        · exact DT.lt_asymm h13
        · simp at hp
      · intro p hp
        rcases List.mem_cons.mp hp with rfl | hp
        · exact DT.lt_asymm h12
        · simp at hp
      · exact List.pairwise_singleton msgLe (m1, t1)
    have heq : List.insertionSort msgLe ((Store.mk rows).fetchAll.map
        fun m => (m, keyOf m)) = [(m3, t3), (m2, t2), (m1, t1)] := by
      refine sorted_perm_eq hpermk hsorted1 hsorted2 ?_
      intro a ha b hb hab hba
      have ha2 := hpermk.mem_iff.mp ha
      have hb2 := hpermk.mem_iff.mp hb
      simp only [List.mem_cons, List.not_mem_nil, or_false] at ha2 hb2
      rcases ha2 with rfl | rfl | rfl <;> rcases hb2 with rfl | rfl | rfl <;>
        first
          | rfl
          | (exfalso
             simp only [msgLe] at hab hba
             unfold DT.lt at hab hba h12 h23 h13
             omega)
    rw [hok, heq]
    rfl
  · intro s l h
    simp only [get_all_messages] at h
    cases hk : attachKeys s.fetchAll with
    | none => rw [hk] at h; simp at h
    | some keyed =>
      rw [hk] at h
      simp only [Except.ok.injEq] at h
      subst h
      have hsorted : (List.insertionSort msgLe keyed).Pairwise msgLe :=
        List.sorted_insertionSort msgLe keyed
      have hmemk : ∀ p ∈ List.insertionSort msgLe keyed,
          strptime p.1.timestamp = some p.2 :=
        fun p hp =>
          (attachKeys_mem hk p ((List.perm_insertionSort msgLe keyed).mem_iff.mp hp)).2
      rw [List.pairwise_map]
      refine pairwise_imp_mem ?_ hsorted
      intro a ha b hb hab ka kb hka hkb
      have h1 := hmemk a ha
      have h2 := hmemk b hb
      rw [h1, Option.some.injEq] at hka
      rw [h2, Option.some.injEq] at hkb
      subst hka
      subst hkb
      exact hab

theorem round_trip_ordering_witness :
    DT.Valid ⟨2024, 1, 2, 3, 4, 5⟩ ∧ DT.Valid ⟨2024, 1, 2, 3, 4, 6⟩ ∧
    DT.Valid ⟨2024, 1, 3, 15, 0, 0⟩ ∧
    DT.lt ⟨2024, 1, 2, 3, 4, 5⟩ ⟨2024, 1, 2, 3, 4, 6⟩ ∧
    DT.lt ⟨2024, 1, 2, 3, 4, 6⟩ ⟨2024, 1, 3, 15, 0, 0⟩ ∧
    (⟨1, "a", "x", "2024-01-02 03:04:05 AM PST"⟩ : Message).timestamp =
      strftime ⟨2024, 1, 2, 3, 4, 5⟩ ∧
    (⟨2, "b", "y", "2024-01-02 03:04:06 AM PST"⟩ : Message).timestamp =
      strftime ⟨2024, 1, 2, 3, 4, 6⟩ ∧
    (⟨3, "c", "z", "2024-01-03 03:00:00 PM PST"⟩ : Message).timestamp =
      strftime ⟨2024, 1, 3, 15, 0, 0⟩ ∧
    ([⟨2, "b", "y", "2024-01-02 03:04:06 AM PST"⟩,
      ⟨3, "c", "z", "2024-01-03 03:00:00 PM PST"⟩,
      ⟨1, "a", "x", "2024-01-02 03:04:05 AM PST"⟩] : List Message).Perm
      [⟨1, "a", "x", "2024-01-02 03:04:05 AM PST"⟩,
       ⟨2, "b", "y", "2024-01-02 03:04:06 AM PST"⟩,
       ⟨3, "c", "z", "2024-01-03 03:00:00 PM PST"⟩] ∧
    get_all_messages ⟨[⟨2, "b", "y", "2024-01-02 03:04:06 AM PST"⟩,
      ⟨3, "c", "z", "2024-01-03 03:00:00 PM PST"⟩,
      ⟨1, "a", "x", "2024-01-02 03:04:05 AM PST"⟩]⟩ =
      Except.ok [⟨3, "c", "z", "2024-01-03 03:00:00 PM PST"⟩,
        ⟨2, "b", "y", "2024-01-02 03:04:06 AM PST"⟩,
        ⟨1, "a", "x", "2024-01-02 03:04:05 AM PST"⟩] :=
  ⟨by decide, by decide, by decide, by decide, by decide, by decide, by decide, by decide,
   by decide,
   round_trip_ordering.1
     ⟨1, "a", "x", "2024-01-02 03:04:05 AM PST"⟩
     ⟨2, "b", "y", "2024-01-02 03:04:06 AM PST"⟩
     ⟨3, "c", "z", "2024-01-03 03:00:00 PM PST"⟩
     ⟨2024, 1, 2, 3, 4, 5⟩ ⟨2024, 1, 2, 3, 4, 6⟩ ⟨2024, 1, 3, 15, 0, 0⟩
     [⟨2, "b", "y", "2024-01-02 03:04:06 AM PST"⟩,
      ⟨3, "c", "z", "2024-01-03 03:00:00 PM PST"⟩,
      ⟨1, "a", "x", "2024-01-02 03:04:05 AM PST"⟩]
     (by decide) (by decide) (by decide) (by decide) (by decide)
     (by decide) (by decide) (by decide) (by decide)⟩

/-! ### Occurrence of an escaped piece inside a rendered fragment -/

/-- `piece` occurs contiguously in `s`. -/
def hasPiece (s piece : String) : Prop := ∃ x y, s = x ++ piece ++ y

theorem hasPiece_self (p : String) : hasPiece p p :=
  ⟨"", "", by simp⟩

theorem hasPiece_append_left {s p : String} (t : String) (h : hasPiece s p) :
    hasPiece (t ++ s) p := by
  rcases h with ⟨x, y, rfl⟩
  exact ⟨t ++ x, y, by simp [String.append_assoc]⟩

theorem hasPiece_append_right {s p : String} (t : String) (h : hasPiece s p) :
    hasPiece (s ++ t) p := by
  rcases h with ⟨x, y, rfl⟩
  exact ⟨x, y ++ t, by simp [String.append_assoc]⟩

theorem renderList_append : ∀ l1 l2 : List Node,
    Node.renderList (l1 ++ l2) = Node.renderList l1 ++ Node.renderList l2 := by
  intro l1 l2
  induction l1 with
  | nil => simp [Node.renderList]
  | cons c cs ih => simp [Node.renderList, ih, String.append_assoc]

theorem message_item_name_piece (m : Message) :
    hasPiece (Node.render (message_item m)) (escapeHtml (m.name ++ ": ")) := by
  simp only [message_item, Node.render, Node.renderList]
  apply hasPiece_append_right
  apply hasPiece_append_right
  apply hasPiece_append_right
  apply hasPiece_append_left
  apply hasPiece_append_right
  apply hasPiece_append_right
  apply hasPiece_append_right
  apply hasPiece_append_right
  apply hasPiece_append_left
  apply hasPiece_append_right
  apply hasPiece_append_right
  apply hasPiece_append_right
  apply hasPiece_append_right
  apply hasPiece_append_left
  apply hasPiece_append_right
  exact hasPiece_self _

theorem message_item_message_piece (m : Message) :
    hasPiece (Node.render (message_item m)) (escapeHtml m.message) := by
  simp only [message_item, Node.render, Node.renderList]
  apply hasPiece_append_right
  apply hasPiece_append_right
  apply hasPiece_append_right
  apply hasPiece_append_left
  apply hasPiece_append_right
  apply hasPiece_append_right
  apply hasPiece_append_right
  apply hasPiece_append_right
  apply hasPiece_append_left
  apply hasPiece_append_left
  apply hasPiece_append_right
  apply hasPiece_append_right
  apply hasPiece_append_right
  apply hasPiece_append_right
  apply hasPiece_append_left
  apply hasPiece_append_right
  exact hasPiece_self _

/-- Anything occurring in one message's rendered item occurs in the rendered
message list. -/
theorem message_list_lift {msgs : List Message} {m : Message} (hm : m ∈ msgs)
    (p : String) (hp : hasPiece (Node.render (message_item m)) p) :
    hasPiece (Node.render (create_message_list msgs)) p := by
  have hne : msgs ≠ [] := by rintro rfl; simp at hm
  rw [create_message_list, if_neg hne]
  rcases List.append_of_mem hm with ⟨pre, post, rfl⟩
  simp only [Node.render, List.map_append, renderList_append, List.map_cons, Node.renderList]
  apply hasPiece_append_right
  apply hasPiece_append_right
  apply hasPiece_append_right
  apply hasPiece_append_left
  apply hasPiece_append_left
  apply hasPiece_append_right
  exact hp

set_option maxRecDepth 20000 in
/-- C7: `create_message_list` renders each stored message's `name` and
`message` through `escapeHtml`; in particular a stored name
`<script>alert(1)</script>` appears in the serialized fragment only as
escaped literals, and the raw `<script` tag does not appear at all. -/
theorem message_list_escapes_html :
    (∀ (msgs : List Message) (m : Message), m ∈ msgs →
      hasPiece (Node.render (create_message_list msgs)) (escapeHtml (m.name ++ ": ")) ∧
      hasPiece (Node.render (create_message_list msgs)) (escapeHtml m.message)) ∧
    (containsSub (Node.render (create_message_list
        [⟨1, "<script>alert(1)</script>", "hi", "2024-01-02 03:04:05 AM PST"⟩]))
        "&lt;script&gt;alert(1)&lt;/script&gt;" = true ∧
     containsSub (Node.render (create_message_list
        [⟨1, "<script>alert(1)</script>", "hi", "2024-01-02 03:04:05 AM PST"⟩]))
        "<script" = false) := by
  refine ⟨?_, by decide, by decide⟩
  intro msgs m hm
  exact ⟨message_list_lift hm _ (message_item_name_piece m),
         message_list_lift hm _ (message_item_message_piece m)⟩

theorem message_list_escapes_html_witness :
    ((⟨1, "Eve", "<b>x</b>", "ts"⟩ : Message) ∈
      ([⟨1, "Eve", "<b>x</b>", "ts"⟩] : List Message)) ∧
    (hasPiece (Node.render (create_message_list [⟨1, "Eve", "<b>x</b>", "ts"⟩]))
       (escapeHtml ("Eve" ++ ": ")) ∧
     hasPiece (Node.render (create_message_list [⟨1, "Eve", "<b>x</b>", "ts"⟩]))
       (escapeHtml "<b>x</b>")) :=
  ⟨by simp,
   message_list_escapes_html.1 [⟨1, "Eve", "<b>x</b>", "ts"⟩]
     ⟨1, "Eve", "<b>x</b>", "ts"⟩ (by simp)⟩

example : strptime "2024-01-02 03:04:05 AM PST" = some ⟨2024, 1, 2, 3, 4, 5⟩ := by decide
example : strptime "2024-12-31 12:59:59 PM PST" = some ⟨2024, 12, 31, 12, 59, 59⟩ := by decide
example : strptime "2024-12-31 12:59:59 AM PST" = some ⟨2024, 12, 31, 0, 59, 59⟩ := by decide
example : strptime "garbage" = none := by decide
example : strptime "2023-02-30 01:00:00 AM PST" = none := by decide
example : strftime ⟨2024, 1, 2, 15, 4, 5⟩ = "2024-01-02 03:04:05 PM PST" := by decide
example : strptime (strftime ⟨2024, 1, 2, 15, 4, 5⟩) = some ⟨2024, 1, 2, 15, 4, 5⟩ := by decide
example : strptime (strftime ⟨2024, 1, 2, 0, 4, 5⟩) = some ⟨2024, 1, 2, 0, 4, 5⟩ := by decide

end Guestbook
